import Mathlib

/-!
Verification of the SOLAT desktop sidecar supervisor
(`apps/desktop/src-tauri/src/main.rs`).

The Rust source is embedded shallowly: the filesystem, the spawned child,
the per-iteration observations of the health-poll loop, and the results of
external commands (`curl`, `kill`) are explicit parameters, and each Tauri
command becomes a pure Lean function over them.  Strings are modelled by
Lean `String`, with Rust's `str::lines` semantics reproduced on the
underlying character list.
-/

/-- Rust `str::lines` on the character list of a string: lines are split at
a line feed or at a carriage return immediately followed by a line feed;
the terminators are not part of the lines and a final terminator produces
no trailing empty line.  A lone carriage return is kept in its line.
`consHead c` prepends `c` to the first line of a split. -/
def consHead (c : Char) : List (List Char) → List (List Char)
  | [] => [[c]]
  | l :: ls => (c :: l) :: ls

/-- See `consHead`: this is Rust `str::lines`. -/
def rustLinesL : List Char → List (List Char)
  | [] => []
  | '\n' :: rest => [] :: rustLinesL rest
  | '\r' :: '\n' :: rest => [] :: rustLinesL rest
  | c :: rest => consHead c (rustLinesL rest)

/-- Rust `Vec::join("\n")` on character lists. -/
def joinNl : List (List Char) → List Char
  | [] => []
  | [l] => l
  | l :: ls => l ++ '\n' :: joinNl ls

/-- The ambient filesystem as seen by `fs::read_to_string`: `none` models
a path that does not exist or cannot be read. -/
def FileSys : Type := String → Option String

/-- Core of `read_log_tail` (main.rs 139-152) applied to the result of
`fs::read_to_string(path)`: on success, split into lines, keep the last
`n` of them and join with line feeds; on any read error return the
sentinel text. -/
def read_log_tail_content : Option String → Nat → String
  | some content, n =>
    let allLines := rustLinesL content.data
    let start := if allLines.length > n then allLines.length - n else 0
    String.mk (joinNl (allLines.drop start))
  | none, _ => "(no log file found)"

/-- `read_log_tail` (main.rs 139-152): read the whole file at `path` and
return the last `n` lines joined by line feeds, or the sentinel string on
any read failure. -/
def read_log_tail (fs : FileSys) (path : String) (n : Nat) : String :=
  read_log_tail_content (fs path) n

deriving instance DecidableEq for Except

/-- Health-poll window in seconds (`HEALTH_WAIT_SECS`, main.rs 19). -/
def HEALTH_WAIT_SECS : Nat := 12

/-- Engine port (`ENGINE_PORT`, main.rs 18). -/
def ENGINE_PORT : Nat := 8765

/-- Rust `str::contains` as a substring test on character lists. -/
def isSubstrL (pat : List Char) : List Char → Bool
  | [] => pat.isEmpty
  | c :: rest => pat.isPrefixOf (c :: rest) || isSubstrL pat rest

/-- Rust `s.contains(pat)`: `pat` occurs as a contiguous substring of `s`. -/
def strContains (s pat : String) : Bool := isSubstrL pat.data s.data

/-- Captured output of a finished `curl` invocation: the bytes it wrote to
standard output and to standard error, decoded lossily to text. -/
structure CurlOutput where
  stdout : String
  stderr : String
deriving DecidableEq

/-- The health-check classification of `get_engine_status` (main.rs
376-395) applied to the result of running
`curl -sS --max-time 2 http://127.0.0.1:8765/health`: an `Except.error`
models `Command::output` itself failing (for example `curl` missing).  On
success the body is healthy exactly when it contains `"healthy"`;
otherwise the body and the captured standard error are reported; on
command failure no body and the error text are reported. -/
def healthCheck : Except String CurlOutput → Bool × Option String × Option String
  | .ok output =>
    if strContains output.stdout "healthy" then (true, some output.stdout, none)
    else (false, some output.stdout, some output.stderr)
  | .error e => (false, none, some e)

/-- An HTTP response from the sidecar's `/health` endpoint, as the
external environment would produce it. -/
structure HttpResponse where
  status : Nat
  body : String
deriving DecidableEq

/-- Whether an HTTP status code is a success (2xx) code. -/
def isSuccessStatus (s : Nat) : Bool := 200 ≤ s && s < 300

/-- Modelled from the spec: the behaviour of the external
`curl -sS --max-time 2` command used as the health probe.  Without `-f`,
`curl` writes the response body to standard output and exits successfully
for every HTTP response it receives, whatever the status code; only a
connection-level failure (no response at all, modelled by `none`) makes
the invocation fail. -/
def curlProbe : Option HttpResponse → Except String CurlOutput
  | some resp => .ok ⟨resp.body, ""⟩
  | none => .error "curl: (7) Failed to connect"

/-- A handle to a spawned engine child process (`std::process::Child`):
the supervisor sees its pid; its exit status and liveness are observed
through the environment oracles below. -/
structure Child where
  pid : Nat
deriving DecidableEq

/-- What one iteration of the health-poll loop in `force_start_engine`
(main.rs 239-279) observes of the environment: the result of
`child.try_wait()` (`Except.ok none` when still running, `Except.ok
(some code)` when exited with `code`, `Except.error` when the check
itself fails), whether a TCP connection to the engine port succeeds, and
the result of the `curl` health request. -/
structure PollObs where
  tryWaitRes : Except String (Option Nat)
  portOccupied : Bool
  curlRes : Except String CurlOutput
deriving DecidableEq

/-- One iteration's health test (main.rs 256-276): the port accepts a
connection, the `curl` command ran, and the body contains `"healthy"`. -/
def healthConfirmed (o : PollObs) : Bool :=
  o.portOccupied &&
    (match o.curlRes with
     | .ok output => strContains output.stdout "healthy"
     | .error _ => false)

/-- How the bounded health-poll loop of `force_start_engine` ends. -/
inductive PollOutcome
  | healthy
  | earlyExit (status : Nat)
  | checkFailed (err : String)
  | timedOut
deriving DecidableEq

/-- The health-poll loop of `force_start_engine` (main.rs 239-279): each
iteration first checks `child.try_wait()` — an observed exit aborts with
that status and a failing check aborts with its error — then runs the
health test, returning on confirmation.  The observation list models the
finitely many iterations that fit in the `HEALTH_WAIT_SECS` deadline;
exhausting it is the loop's timeout. -/
def pollEngine : List PollObs → PollOutcome
  | [] => .timedOut
  | o :: rest =>
    match o.tryWaitRes with
    | .ok (some status) => .earlyExit status
    | .ok none => if healthConfirmed o then .healthy else pollEngine rest
    | .error e => .checkFailed e

/-- Display form of a Unix `std::process::ExitStatus` that exited
normally with the given code. -/
def statusDisplay (code : Nat) : String := "exit status: " ++ toString code

/-- The early-exit failure message of `force_start_engine` (main.rs
243-247). -/
def exitErrorMsg (status : Nat) (tail : String) : String :=
  "Engine exited immediately with status: " ++ statusDisplay status ++
    ".\nLast log lines:\n" ++ tail

/-- `force_start_engine` (main.rs 229-289): spawn the engine (the spawn
result, covering directory resolution, log-file creation and the OS
spawn, is an input), then run the bounded health poll.  Health
confirmation and timeout both return the running child — the timeout
path only logs a warning; an observed early exit fails with the exit
status and the last 20 log lines; a failing liveness check fails with
its error. -/
def force_start_engine (fs : FileSys) (logPath : String)
    (spawnRes : Except String Child) (obs : List PollObs) : Except String Child :=
  match spawnRes with
  | .error e => .error e
  | .ok child =>
    match pollEngine obs with
    | .healthy => .ok child
    | .timedOut => .ok child
    | .earlyExit status => .error (exitErrorMsg status (read_log_tail fs logPath 20))
    | .checkFailed e => .error ("Failed to check engine status: " ++ e)

/-- Externally visible process actions of `start_engine`, in program
order: killing and waiting on the previously held child and spawning a
new one. -/
inductive EngineEv
  | killHandle (pid : Nat)
  | waitHandle (pid : Nat)
  | spawnChild (pid : Nat)
deriving DecidableEq

/-- The pre-clear step of `start_engine` (main.rs 300-308): under the
lock, kill and wait on any held child and empty the slot. -/
def preclearSlot : Option Child → Option Child × List EngineEv
  | some child => (none, [.killHandle child.pid, .waitHandle child.pid])
  | none => (none, [])

/-- The spawn action performed inside `force_start_engine`, visible in
the event trace exactly when the spawn succeeded. -/
def spawnEvents : Except String Child → List EngineEv
  | .ok child => [.spawnChild child.pid]
  | .error _ => []

/-- `start_engine` (main.rs 295-320): pre-clear the slot, run
`force_start_engine`, and on success install the new child and report its
pid.  Returns the command result, the final slot, and the trace of
process actions. -/
def start_engine (slot : Option Child) (fs : FileSys) (logPath : String)
    (spawnRes : Except String Child) (obs : List PollObs) :
    Except String String × Option Child × List EngineEv :=
  let cleared := preclearSlot slot
  let evs := cleared.2 ++ spawnEvents spawnRes
  match force_start_engine fs logPath spawnRes obs with
  | .error e => (.error e, cleared.1, evs)
  | .ok child =>
    (.ok ("Engine started (pid " ++ toString child.pid ++ ")"), some child, evs)

/-- `stop_engine` (main.rs 322-335): with a held child, kill it (the
result of `child.kill()` is an input), wait, clear the slot and report
success; a kill failure is returned as an error with the slot untouched.
With no held child, report the distinct nothing-to-stop success. -/
def stop_engine (slot : Option Child) (killRes : Except String Unit) :
    Except String String × Option Child :=
  match slot with
  | some child =>
    match killRes with
    | .ok _ => (.ok "Engine stopped", none)
    | .error e => (.error ("Failed to kill engine: " ++ e), some child)
  | none => (.ok "No engine process to stop", none)

/-- The response of `get_engine_status` (main.rs 337-346). -/
structure EngineStatus where
  running : Bool
  pid : Option Nat
  health_ok : Bool
  health_body : Option String
  health_error : Option String
  log_tail : String
  log_path : String
deriving DecidableEq

/-- The liveness part of `get_engine_status` (main.rs 355-373): with a
held child, a `try_wait` that reports an exit clears the slot and
reports not-running with the child's pid; a still-running child is
reported running with its pid; a failing `try_wait` reports not-running
with no pid and leaves the slot untouched.  An empty slot is
not-running with no pid. -/
def liveness (slot : Option Child) (tryWaitRes : Except String (Option Nat)) :
    Bool × Option Nat × Option Child :=
  match slot with
  | some child =>
    match tryWaitRes with
    | .ok (some _) => (false, some child.pid, none)
    | .ok none => (true, some child.pid, some child)
    | .error _ => (false, none, some child)
  | none => (false, none, none)

/-- `get_engine_status` (main.rs 348-408): combine the liveness check,
a fresh health probe and a 30-line log tail into one status snapshot,
returning also the possibly updated slot. -/
def get_engine_status (slot : Option Child) (tryWaitRes : Except String (Option Nat))
    (curlRes : Except String CurlOutput) (fs : FileSys) (logPath : String) :
    EngineStatus × Option Child :=
  let l := liveness slot tryWaitRes
  let h := healthCheck curlRes
  ({ running := l.1, pid := l.2.1,
     health_ok := h.1, health_body := h.2.1, health_error := h.2.2,
     log_tail := read_log_tail fs logPath 30,
     log_path := logPath }, l.2.2)

/-- Rust `Iterator::collect::<Result<Vec<_>, _>>()`: the sequence of
per-line read results of `BufReader::lines`, stopping at the first
failed read. -/
def collectLines : List (Except String String) → Except String (List String)
  | [] => .ok []
  | .error e :: _ => .error e
  | .ok line :: rest =>
    match collectLines rest with
    | .ok lines => .ok (line :: lines)
    | .error e => .error e

/-- `read_log_tail_full` (main.rs 416-427): the input models
`File::open` (outer `Except`) followed by the per-line results of
`BufReader::lines` (inner `Except`s, which can fail on I/O errors or
invalid UTF-8).  Any failure propagates; otherwise the last 100 lines
are joined with line feeds. -/
def read_log_tail_full (openRes : Except String (List (Except String String))) :
    Except String String :=
  match openRes with
  | .error e => .error e
  | .ok lineResults =>
    match collectLines lineResults with
    | .error e => .error e
    | .ok lines =>
      let start := if lines.length > 100 then lines.length - 100 else 0
      .ok (String.intercalate "\n" (lines.drop start))

/-- `get_engine_log` (main.rs 410-414): fetch the log path and return
`read_log_tail_full`, converting the I/O error to its message (already a
string here). -/
def get_engine_log (openRes : Except String (List (Except String String))) :
    Except String String :=
  read_log_tail_full openRes

/-- A poll iteration on which the loop moves to the next one: the child
is observed still running and health is not confirmed. -/
def pollContinues (o : PollObs) : Prop :=
  o.tryWaitRes = Except.ok none ∧ healthConfirmed o = false

instance (o : PollObs) : Decidable (pollContinues o) :=
  inferInstanceAs (Decidable (_ ∧ _))

/-! Helper lemmas about line splitting and joining. -/

theorem consHead_ne_nil (c : Char) (r : List (List Char)) : consHead c r ≠ [] := by
  cases r <;> simp [consHead]

theorem rustLinesL_ne_nil (cs : List Char) : cs ≠ [] → rustLinesL cs ≠ [] := by
  induction cs using rustLinesL.induct with
  | case1 => intro h; exact absurd rfl h
  | case2 rest ih => intro _; simp [rustLinesL]
  | case3 rest ih => intro _; simp [rustLinesL]
  | case4 c rest h1 h2 ih =>
    intro _
    rw [rustLinesL.eq_4 c rest h1 h2]
    exact consHead_ne_nil c _

theorem joinNl_consHead (c : Char) (r : List (List Char)) :
    joinNl (consHead c r) = c :: joinNl r := by
  match r with
  | [] => rfl
  | [l] => rfl
  | l :: l' :: ls => rfl

theorem getLast?_cons_of_ne_nil (a : Char) {rest : List Char} (h : rest ≠ []) :
    (a :: rest).getLast? = rest.getLast? := by
  cases rest with
  | nil => exact absurd rfl h
  | cons b bs => exact List.getLast?_cons_cons

/-- Splitting into lines and re-joining with line feeds is the identity
on content that has no carriage return and does not end in a line
feed. -/
theorem joinNl_rustLinesL (cs : List Char) :
    '\r' ∉ cs → cs.getLast? ≠ some '\n' → joinNl (rustLinesL cs) = cs := by
  induction cs using rustLinesL.induct with
  | case1 => intro _ _; rfl
  | case2 rest ih =>
    intro hcr hlast
    have hrest : rest ≠ [] := by rintro rfl; exact hlast rfl
    have hcr' : '\r' ∉ rest := fun h => hcr (List.mem_cons_of_mem _ h)
    have hlast' : rest.getLast? ≠ some '\n' := by
      rw [← getLast?_cons_of_ne_nil '\n' hrest]; exact hlast
    rw [rustLinesL.eq_2]
    obtain ⟨l, ls, he⟩ : ∃ l ls, rustLinesL rest = l :: ls := by
      cases h' : rustLinesL rest with
      | nil => exact absurd h' (rustLinesL_ne_nil rest hrest)
      | cons l ls => exact ⟨l, ls, rfl⟩
    rw [he]
    have hstep : joinNl ([] :: l :: ls) = '\n' :: joinNl (l :: ls) := rfl
    rw [hstep, ← he, ih hcr' hlast']
  | case3 rest ih =>
    intro hcr _
    exact absurd (List.mem_cons_self _ _) hcr
  | case4 c rest h1 h2 ih =>
    intro hcr hlast
    rw [rustLinesL.eq_4 c rest h1 h2, joinNl_consHead]
    by_cases hrest : rest = []
    · subst hrest; rfl
    · have hcr' : '\r' ∉ rest := fun h => hcr (List.mem_cons_of_mem _ h)
      have hlast' : rest.getLast? ≠ some '\n' := by
        rw [← getLast?_cons_of_ne_nil c hrest]; exact hlast
      rw [ih hcr' hlast']

/-- Dropping all but the final `n` elements yields the length-`n` suffix. -/
theorem drop_length_sub {α : Type} (l : List α) (n : Nat) (h : n ≤ l.length) :
    ∃ l₁ l₂, l = l₁ ++ l₂ ∧ l₂.length = n ∧ l.drop (l.length - n) = l₂ := by
  refine ⟨l.take (l.length - n), l.drop (l.length - n),
    (List.take_append_drop _ l).symm, ?_, rfl⟩
  rw [List.length_drop]
  omega

/-! Claim theorems. -/

/-- C5: `read_log_tail` on a path whose read fails (nonexistent or
unreadable file) returns the fixed sentinel string
`"(no log file found)"`; as a total function into `String`, it can
neither raise nor return an error. -/
theorem c5_tail_missing_file_sentinel (fs : FileSys) (path : String) (n : Nat)
    (h : fs path = none) : read_log_tail fs path n = "(no log file found)" := by
  unfold read_log_tail
  rw [h]
  rfl

theorem c5_witness :
    read_log_tail (fun _ => none) "engine-boot.log" 30 = "(no log file found)" :=
  c5_tail_missing_file_sentinel (fun _ => none) "engine-boot.log" 30 rfl

/-- C4 counterexample: the file content `"a\n"` has one line, fewer than
`n = 5`, yet `read_log_tail` returns `"a"` rather than the content
unchanged — the trailing line break is dropped by the split-and-join. -/
theorem c4_counterexample :
    (rustLinesL "a\n".data).length < 5 ∧
      read_log_tail (fun _ => some "a\n") "engine-boot.log" 5 ≠ "a\n" := by
  decide

/-- C4 (amended): on a readable file with fewer than `n` lines,
`read_log_tail` returns all of the content's lines joined by line feeds —
equal to the entire content unchanged whenever the content contains no
carriage return and does not end in a line feed; on a file with more than
`n` lines it returns exactly the last `n` lines, in original order,
joined by line feeds. -/
theorem c4_tail_amended (fs : FileSys) (path : String) (content : String) (n : Nat)
    (hread : fs path = some content) :
    (('\r' ∉ content.data ∧ content.data.getLast? ≠ some '\n' ∧
        (rustLinesL content.data).length < n) →
      read_log_tail fs path n = content) ∧
    ((rustLinesL content.data).length > n →
      ∃ l₁ l₂, rustLinesL content.data = l₁ ++ l₂ ∧ l₂.length = n ∧
        read_log_tail fs path n = String.mk (joinNl l₂)) := by
  have hstep : read_log_tail fs path n =
      String.mk (joinNl ((rustLinesL content.data).drop
        (if (rustLinesL content.data).length > n
          then (rustLinesL content.data).length - n else 0))) := by
    unfold read_log_tail
    rw [hread]
    rfl
  constructor
  · rintro ⟨hcr, hlast, hlen⟩
    rw [hstep, if_neg (by omega), List.drop_zero]
    exact String.ext (joinNl_rustLinesL content.data hcr hlast)
  · intro hlen
    obtain ⟨l₁, l₂, hsplit, hlen2, hdrop⟩ :=
      drop_length_sub (rustLinesL content.data) n (Nat.le_of_lt hlen)
    refine ⟨l₁, l₂, hsplit, hlen2, ?_⟩
    rw [hstep, if_pos hlen, hdrop]

theorem c4_witness :
    read_log_tail (fun _ => some "a\nb") "engine-boot.log" 5 = "a\nb" ∧
    (∃ l₁ l₂, rustLinesL "a\nb\nc".data = l₁ ++ l₂ ∧ l₂.length = 2 ∧
      read_log_tail (fun _ => some "a\nb\nc") "engine-boot.log" 2 =
        String.mk (joinNl l₂)) :=
  ⟨(c4_tail_amended (fun _ => some "a\nb") "engine-boot.log" "a\nb" 5 rfl).1
      (by decide),
   (c4_tail_amended (fun _ => some "a\nb\nc") "engine-boot.log" "a\nb\nc" 2 rfl).2
      (by decide)⟩

/-! Poll-loop lemmas. -/

theorem pollEngine_timedOut (obs : List PollObs) (h : ∀ o ∈ obs, pollContinues o) :
    pollEngine obs = .timedOut := by
  induction obs with
  | nil => rfl
  | cons o rest ih =>
    obtain ⟨h1, h2⟩ := h o (List.mem_cons_self _ _)
    simp [pollEngine, h1, h2, ih (fun x hx => h x (List.mem_cons_of_mem _ hx))]

theorem pollEngine_earlyExit (pre : List PollObs) (o : PollObs) (rest : List PollObs)
    (status : Nat) (hpre : ∀ x ∈ pre, pollContinues x)
    (hexit : o.tryWaitRes = Except.ok (some status)) :
    pollEngine (pre ++ o :: rest) = .earlyExit status := by
  induction pre with
  | nil => simp [pollEngine, hexit]
  | cons p ps ih =>
    obtain ⟨h1, h2⟩ := hpre p (List.mem_cons_self _ _)
    simp [pollEngine, h1, h2, ih (fun x hx => hpre x (List.mem_cons_of_mem _ hx))]

theorem force_start_ok (fs : FileSys) (logPath : String) (spawnRes : Except String Child)
    (obs : List PollObs) (child' : Child)
    (h : force_start_engine fs logPath spawnRes obs = .ok child') :
    spawnRes = .ok child' := by
  unfold force_start_engine at h
  cases spawnRes with
  | error e => simp at h
  | ok c => cases hp : pollEngine obs <;> simp [hp] at h <;> simp [h]

/-- C1: any `start_engine` call that finds a held handle first kills and
waits on it — these are the first two actions of its trace, and every
spawn action comes strictly later — and its pre-clear step leaves the
slot empty, so the supervisor never holds two simultaneously-live
handles; moreover any handle installed afterwards is the newly spawned
child, never the old one. -/
theorem c1_preclear_before_spawn (child : Child) (fs : FileSys) (logPath : String)
    (spawnRes : Except String Child) (obs : List PollObs) :
    (start_engine (some child) fs logPath spawnRes obs).2.2.take 2 =
        [EngineEv.killHandle child.pid, EngineEv.waitHandle child.pid] ∧
    (∀ i p, (start_engine (some child) fs logPath spawnRes obs).2.2[i]? =
        some (EngineEv.spawnChild p) → 2 ≤ i) ∧
    (preclearSlot (some child)).1 = none ∧
    (∀ c', (start_engine (some child) fs logPath spawnRes obs).2.1 = some c' →
        spawnRes = Except.ok c') := by
  have hevs : (start_engine (some child) fs logPath spawnRes obs).2.2 =
      EngineEv.killHandle child.pid :: EngineEv.waitHandle child.pid ::
        spawnEvents spawnRes := by
    cases hfs : force_start_engine fs logPath spawnRes obs <;>
      simp [start_engine, hfs, preclearSlot]
  refine ⟨?_, ?_, rfl, ?_⟩
  · rw [hevs]
    rfl
  · intro i p h
    rw [hevs] at h
    match i with
    | 0 => simp at h
    | 1 => simp at h
    | i + 2 => omega
  · intro c' hc
    cases hfs : force_start_engine fs logPath spawnRes obs with
    | error e =>
      rw [show (start_engine (some child) fs logPath spawnRes obs).2.1 =
          (preclearSlot (some child)).1 from by simp [start_engine, hfs]] at hc
      simp [preclearSlot] at hc
    | ok c0 =>
      have : (start_engine (some child) fs logPath spawnRes obs).2.1 = some c0 := by
        simp [start_engine, hfs]
      rw [this] at hc
      obtain rfl : c0 = c' := by simpa using hc
      exact force_start_ok fs logPath spawnRes obs c0 hfs

/-- C2: whenever the spawned child is observed to have exited during the
health-poll loop (after any number of uneventful iterations),
`start_engine` returns a failure whose message embeds the child's exit
status and the last 20 log lines, and that message is non-empty whatever
the log file holds. -/
theorem c2_early_exit_failure (slot : Option Child) (fs : FileSys) (logPath : String)
    (child : Child) (pre : List PollObs) (o : PollObs) (rest : List PollObs)
    (status : Nat) (hpre : ∀ x ∈ pre, pollContinues x)
    (hexit : o.tryWaitRes = Except.ok (some status)) :
    (start_engine slot fs logPath (Except.ok child) (pre ++ o :: rest)).1 =
        Except.error (exitErrorMsg status (read_log_tail fs logPath 20)) ∧
    (∃ a b, exitErrorMsg status (read_log_tail fs logPath 20) =
        a ++ statusDisplay status ++ b) ∧
    (∃ a, exitErrorMsg status (read_log_tail fs logPath 20) =
        a ++ read_log_tail fs logPath 20) ∧
    exitErrorMsg status (read_log_tail fs logPath 20) ≠ "" := by
  have hpoll := pollEngine_earlyExit pre o rest status hpre hexit
  have hforce : force_start_engine fs logPath (Except.ok child) (pre ++ o :: rest) =
      .error (exitErrorMsg status (read_log_tail fs logPath 20)) := by
    unfold force_start_engine
    rw [hpoll]
  refine ⟨by simp [start_engine, hforce],
    ⟨"Engine exited immediately with status: ",
      ".\nLast log lines:\n" ++ read_log_tail fs logPath 20, ?_⟩,
    ⟨"Engine exited immediately with status: " ++ statusDisplay status ++
      ".\nLast log lines:\n", rfl⟩, ?_⟩
  · simp [exitErrorMsg, String.append_assoc]
  · intro hcontra
    unfold exitErrorMsg at hcontra
    have hlen := congrArg String.length hcontra
    rw [String.length_append, String.length_append, String.length_append] at hlen
    have hpos : 0 < "Engine exited immediately with status: ".length := by decide
    have hz : "".length = 0 := rfl
    omega

theorem c2_witness :
    (start_engine none (fun _ => some "") "engine-boot.log" (Except.ok ⟨11⟩)
        [⟨Except.ok (some 1), false, Except.error "curl failed"⟩]).1 =
      Except.error (exitErrorMsg 1
        (read_log_tail (fun _ => some "") "engine-boot.log" 20)) :=
  (c2_early_exit_failure none (fun _ => some "") "engine-boot.log" ⟨11⟩ []
    ⟨Except.ok (some 1), false, Except.error "curl failed"⟩ [] 1
    (by intro x hx; simp at hx) rfl).1

/-- C3: when the child is still running at every iteration and health is
never confirmed, the poll loop exhausts its bounded window and
`start_engine` does not return an error: it returns success with the
still-running handle installed in the slot (the source only logs a
warning on this path). -/
theorem c3_timeout_returns_running (slot : Option Child) (fs : FileSys)
    (logPath : String) (child : Child) (obs : List PollObs)
    (hobs : ∀ o ∈ obs, pollContinues o) :
    start_engine slot fs logPath (Except.ok child) obs =
      (Except.ok ("Engine started (pid " ++ toString child.pid ++ ")"), some child,
        (preclearSlot slot).2 ++ [EngineEv.spawnChild child.pid]) := by
  have hforce : force_start_engine fs logPath (Except.ok child) obs = .ok child := by
    unfold force_start_engine
    rw [pollEngine_timedOut obs hobs]
  simp [start_engine, hforce, spawnEvents]

theorem c3_witness :
    start_engine none (fun _ => none) "engine-boot.log" (Except.ok ⟨7⟩)
        [⟨Except.ok none, false, Except.error "connection refused"⟩] =
      (Except.ok ("Engine started (pid " ++ toString (7 : Nat) ++ ")"), some ⟨7⟩,
        (preclearSlot none).2 ++ [EngineEv.spawnChild 7]) :=
  c3_timeout_returns_running none (fun _ => none) "engine-boot.log" ⟨7⟩
    [⟨Except.ok none, false, Except.error "connection refused"⟩] (by decide)

/-- C7 counterexample: an HTTP response with non-success status 500 whose
body is `"unhealthy"` (which contains `"healthy"` as a substring) is
reported healthy by the probe, so a non-success HTTP status is not always
reported as not healthy. -/
theorem c7_counterexample :
    isSuccessStatus 500 = false ∧
      (healthCheck (curlProbe (some ⟨500, "unhealthy"⟩))).1 = true := by
  decide

/-- C7 (amended): the probe reports healthy exactly when the probe
command completed and the response body contains the readiness marker
`"healthy"` as a substring — the HTTP status code is never consulted —
and a connection failure is reported not healthy, with no body. -/
theorem c7_health_amended (curlRes : Except String CurlOutput) :
    ((healthCheck curlRes).1 = true ↔
      ∃ output, curlRes = Except.ok output ∧
        strContains output.stdout "healthy" = true) ∧
    (∀ resp : HttpResponse,
      (healthCheck (curlProbe (some resp))).1 = strContains resp.body "healthy") ∧
    (healthCheck (curlProbe none)).1 = false ∧
    (healthCheck (curlProbe none)).2.1 = none := by
  refine ⟨?_, ?_, rfl, rfl⟩
  · cases curlRes with
    | ok output =>
      cases h : strContains output.stdout "healthy" <;> simp [healthCheck, h]
    | error e => simp [healthCheck]
  · intro resp
    cases h : strContains resp.body "healthy" <;> simp [healthCheck, curlProbe, h]

/-- C8: with a held child whose non-blocking exit check reports that the
process has already exited, `get_engine_status` reports not-running
together with the child's last known pid and clears the handle from the
slot. -/
theorem c8_status_exit_clears (child : Child) (code : Nat)
    (curlRes : Except String CurlOutput) (fs : FileSys) (logPath : String) :
    ((get_engine_status (some child) (Except.ok (some code)) curlRes fs logPath).1.running
        = false) ∧
    ((get_engine_status (some child) (Except.ok (some code)) curlRes fs logPath).1.pid
        = some child.pid) ∧
    ((get_engine_status (some child) (Except.ok (some code)) curlRes fs logPath).2
        = none) :=
  ⟨rfl, rfl, rfl⟩

/-- C10: when the non-blocking exit check itself fails with an
operating-system error, `get_engine_status` reports not-running with no
pid but leaves the (possibly live) handle installed in the slot — in
contrast to the detected-exit case, which clears it. -/
theorem c10_status_err_keeps_handle (child : Child) (e : String)
    (curlRes : Except String CurlOutput) (fs : FileSys) (logPath : String) :
    ((get_engine_status (some child) (Except.error e) curlRes fs logPath).1.running
        = false) ∧
    ((get_engine_status (some child) (Except.error e) curlRes fs logPath).1.pid
        = none) ∧
    ((get_engine_status (some child) (Except.error e) curlRes fs logPath).2
        = some child) ∧
    (∀ code, (get_engine_status (some child) (Except.ok (some code)) curlRes fs logPath).2
        = none) :=
  ⟨rfl, rfl, rfl, fun _ => rfl⟩

/-- C9 counterexample: with a held handle whose kill fails,
`stop_engine` returns an error and leaves the handle in the slot — it
neither waits nor clears, so a held handle is not unconditionally
terminated, waited on and cleared. -/
theorem c9_counterexample :
    stop_engine (some ⟨42⟩) (Except.error "No such process") =
      (Except.error ("Failed to kill engine: " ++ "No such process"), some ⟨42⟩) := rfl

/-- C9 (amended): `stop_engine` with no held handle returns the distinct
successful nothing-to-stop result, not an error; with a held handle it
kills the process and, when the kill succeeds, waits for exit, clears
the slot and reports success — a failing kill instead surfaces as an
error with the handle left in place. -/
theorem c9_stop_amended (slot : Option Child) (killRes : Except String Unit) :
    (slot = none →
      stop_engine slot killRes = (Except.ok "No engine process to stop", none)) ∧
    (∀ child, slot = some child → killRes = Except.ok () →
      stop_engine slot killRes = (Except.ok "Engine stopped", none)) ∧
    (∀ child e, slot = some child → killRes = Except.error e →
      stop_engine slot killRes =
        (Except.error ("Failed to kill engine: " ++ e), some child)) ∧
    ("No engine process to stop" ≠ "Engine stopped") := by
  refine ⟨?_, ?_, ?_, by decide⟩
  · rintro rfl
    rfl
  · rintro child rfl rfl
    rfl
  · rintro child e rfl rfl
    rfl

theorem c9_witness :
    stop_engine none (Except.ok ()) = (Except.ok "No engine process to stop", none) ∧
    stop_engine (some ⟨3⟩) (Except.ok ()) = (Except.ok "Engine stopped", none) ∧
    stop_engine (some ⟨3⟩) (Except.error "Operation not permitted") =
      (Except.error ("Failed to kill engine: " ++ "Operation not permitted"), some ⟨3⟩) :=
  ⟨(c9_stop_amended none (Except.ok ())).1 rfl,
   (c9_stop_amended (some ⟨3⟩) (Except.ok ())).2.1 ⟨3⟩ rfl rfl,
   (c9_stop_amended (some ⟨3⟩) (Except.error "Operation not permitted")).2.2.1
     ⟨3⟩ "Operation not permitted" rfl rfl⟩

/-- C6 counterexample: a successfully opened log file whose single line
read fails (for example on invalid UTF-8 bytes) makes
`read_log_tail_full` fail, so a hard error is not confined to files that
cannot be opened at all. -/
theorem c6_counterexample :
    read_log_tail_full (Except.ok [Except.error "stream did not contain valid UTF-8"]) =
      Except.error "stream did not contain valid UTF-8" := rfl

theorem collectLines_append_error (pre : List (Except String String)) (e : String)
    (post : List (Except String String)) (h : ∀ r ∈ pre, ∃ s, r = Except.ok s) :
    collectLines (pre ++ Except.error e :: post) = Except.error e := by
  induction pre with
  | nil => rfl
  | cons r rs ih =>
    obtain ⟨s, rfl⟩ := h r (List.mem_cons_self _ _)
    simp [collectLines, ih (fun x hx => h x (List.mem_cons_of_mem _ hx))]

/-- C6 (amended): `read_log_tail_full` propagates a hard error when the
file cannot be opened, and also when reading or decoding any line fails
after a successful open; when every line read succeeds it returns the
last 100 lines (all lines when there are at most 100), in original
order, joined by line feeds. -/
theorem c6_full_tail_amended :
    (∀ e, read_log_tail_full (Except.error e) = Except.error e) ∧
    (∀ pre e post, (∀ r ∈ pre, ∃ s, r = Except.ok s) →
      read_log_tail_full (Except.ok (pre ++ Except.error e :: post)) =
        Except.error e) ∧
    (∀ lineResults lines, collectLines lineResults = Except.ok lines →
      (lines.length ≤ 100 →
        read_log_tail_full (Except.ok lineResults) =
          Except.ok (String.intercalate "\n" lines)) ∧
      (lines.length > 100 →
        ∃ l₁ l₂, lines = l₁ ++ l₂ ∧ l₂.length = 100 ∧
          read_log_tail_full (Except.ok lineResults) =
            Except.ok (String.intercalate "\n" l₂))) := by
  refine ⟨fun e => rfl, ?_, ?_⟩
  · intro pre e post h
    simp only [read_log_tail_full]
    rw [collectLines_append_error pre e post h]
  · intro lineResults lines hc
    have hstep : read_log_tail_full (Except.ok lineResults) =
        Except.ok (String.intercalate "\n"
          (lines.drop (if lines.length > 100 then lines.length - 100 else 0))) := by
      simp only [read_log_tail_full]
      rw [hc]
    constructor
    · intro hlen
      rw [hstep, if_neg (by omega), List.drop_zero]
    · intro hlen
      obtain ⟨l₁, l₂, hsplit, hlen2, hdrop⟩ :=
        drop_length_sub lines 100 (Nat.le_of_lt hlen)
      refine ⟨l₁, l₂, hsplit, hlen2, ?_⟩
      rw [hstep, if_pos hlen, hdrop]

theorem c6_witness :
    read_log_tail_full (Except.error "Permission denied") =
      Except.error "Permission denied" ∧
    read_log_tail_full
        (Except.ok [Except.ok "a", Except.error "bad line", Except.ok "b"]) =
      Except.error "bad line" ∧
    read_log_tail_full (Except.ok [Except.ok "a", Except.ok "b"]) =
      Except.ok (String.intercalate "\n" ["a", "b"]) :=
  ⟨c6_full_tail_amended.1 "Permission denied",
   c6_full_tail_amended.2.1 [Except.ok "a"] "bad line" [Except.ok "b"]
     (by intro r hr; simp at hr; exact ⟨"a", hr⟩),
   (c6_full_tail_amended.2.2 [Except.ok "a", Except.ok "b"] ["a", "b"] rfl).1
     (by decide)⟩
